import Mathlib

/-!
Shallow embedding of the Conversation session class (src/conversation.ts and the
retry/idle variant in src/unnamed/part_001) of the acvbotapi repository.

The class is a single-threaded event-emitting session manager.  Each method is
modelled as a pure function from the session state (and, for methods that issue
an HTTP request, the response its callback eventually receives) to the new
session state together with the list of observable notifications emitted, in
emission order.  JavaScript truthiness tests on optional values are modelled
explicitly (truthyStr, truthyNat).  The EventEmitter once-listeners registered
by whenConnected are part of the state (onceConnected); each registered
callback is identified by an abstract numeric id, and its eventual invocation
is recorded as an Event.invoke carrying the number of milliseconds the
callback waits after the "connected" emission (0 for a direct synchronous
call, d for a setTimeout of d milliseconds).
-/

/-- Truthiness of an optional string as JavaScript evaluates it:
undefined and the empty string are falsy, every other string is truthy. -/
def truthyStr : Option String → Bool
  | none => false
  | some s => s != ""

/-- Truthiness of an optional number as JavaScript evaluates it:
undefined and 0 are falsy. -/
def truthyNat : Option Nat → Bool
  | none => false
  | some n => n != 0

/-- A pair of an id and a name, as in the INameAndId wire shape. -/
structure INameAndId where
  id : String
  name : String
  deriving DecidableEq, Repr

/-- One unit of conversation traffic received from the service (IActivity).
The field named from in the source is called from_ here because from is a
reserved word in Lean.  Attachment payloads and channelData are never
inspected by the session logic and are not modelled. -/
structure IActivity where
  type : String
  id : String
  timestamp : String
  serviceUrl : String
  channelId : String
  from_ : INameAndId
  conversation : INameAndId
  recipient : INameAndId
  text : String
  replyToId : String
  deriving DecidableEq, Repr

/-- The state of one Conversation object.  timer abstracts the NodeJS.Timer
field to whether a repeating polling timer is currently active (the source
only ever tests it for null).  onceConnected is the list of pending
once-listeners on the "connected" event registered through whenConnected,
in registration order, each as (callback id, delayForFirstMessage). -/
structure Conversation where
  userId : String := ""
  userName : String := "user"
  conversationId : Option String := none
  token : String := ""
  expiresIn : Nat := 0
  watermark : Option Nat := none
  timer : Bool := false
  hasSentMessage : Bool := false
  onceConnected : List (Nat × Option Nat) := []
  deriving DecidableEq, Repr

/-- Observable effects of the session, in emission order: the four notification
channels of the class, plus invoke f w recording that the whenConnected
callback with id f is run, w milliseconds after the moment of invocation
(w = 0 for a direct synchronous call, w = d for setTimeout of d). -/
inductive Event where
  | connected
  | started
  | stopped
  | message (text : String) (activity : IActivity)
  | invoke (funcId : Nat) (waitMs : Nat)
  deriving DecidableEq, Repr

/-- Outcome delivered to the callback of the create() POST request.  The three
failure constructors mirror the three checks in the source: a truthy error
argument, a body parseJSON rejects, and a parsed body carrying an error
field.  All three make the callback log and return. -/
inductive CreateResponse where
  | networkError
  | unparsableBody
  | errorField (err : String)
  | success (conversationId : String) (token : String) (expires_in : Nat)
  deriving DecidableEq, Repr

/-- Outcome delivered to the callback of the sendMessage() POST request. -/
inductive SendResponse where
  | networkError
  | unparsableBody
  | errorField (err : String)
  | success
  deriving DecidableEq, Repr

/-- Outcome delivered to the callback of the polling GET request.  A success
carries the watermark and activities fields of the parsed body. -/
inductive PollResponse where
  | networkError
  | unparsableBody
  | errorField (err : String)
  | success (watermark : Nat) (activities : List IActivity)
  deriving DecidableEq, Repr

/-- stopInterval(): if a timer is active, clear it, set it to null and emit
"stopped"; otherwise do nothing. -/
def Conversation.stopInterval (c : Conversation) : Conversation × List Event :=
  if c.timer then ({ c with timer := false }, [Event.stopped]) else (c, [])

/-- startInterval(): stopInterval() first, then install a fresh repeating
timer and emit "started". -/
def Conversation.startInterval (c : Conversation) : Conversation × List Event :=
  let p := c.stopInterval
  ({ p.1 with timer := true }, p.2 ++ [Event.started])

/-- The constructor new Conversation(conversationId?): store the argument in
the conversationId field as-is, and call startInterval() when the argument is
truthy (present and non-empty). -/
def Conversation.new (conversationId : Option String) : Conversation × List Event :=
  let c : Conversation := { conversationId := conversationId }
  if truthyStr conversationId then c.startInterval else (c, [])

/-- Running one pending whenConnected once-listener at "connected" time: the
source callback is delayForFirstMessage then setTimeout(func, delay) else
func(), so a truthy delay waits that many milliseconds and anything else
(absent or 0) runs func at once. -/
def fireOnce : Nat × Option Nat → Event
  | (fid, d) => Event.invoke fid (if truthyNat d then d.getD 0 else 0)

/-- emit("connected"): notify subscribers and run every pending once-listener
in registration order; once-listeners are removed by the emitter. -/
def Conversation.emitConnected (c : Conversation) : Conversation × List Event :=
  ({ c with onceConnected := [] }, Event.connected :: c.onceConnected.map fireOnce)

/-- The success branch of the create() callback, shared by both source
variants: set conversationId, token and expiresIn from the response, reset the
watermark to null, emit "connected", then startInterval(). -/
def Conversation.createSuccess (c : Conversation) (conversationId token : String)
    (expires_in : Nat) : Conversation × List Event :=
  let c := { c with conversationId := some conversationId, token := token,
                    expiresIn := expires_in, watermark := none }
  let p := c.emitConnected
  let q := p.1.startInterval
  (q.1, p.2 ++ q.2)

/-- create() of src/conversation.ts: one POST request; the callback logs and
returns on any of the three failure checks, and otherwise runs the success
branch. -/
def Conversation.create (c : Conversation) (r : CreateResponse) : Conversation × List Event :=
  match r with
  | CreateResponse.networkError => (c, [])
  | CreateResponse.unparsableBody => (c, [])
  | CreateResponse.errorField _ => (c, [])
  | CreateResponse.success cid tok e => c.createSuccess cid tok e

/-- The doRequest loop of create() in the part_001 variant.  The first
argument of the recursion is the remaining value of the tries counter (the
guard tries-- stops a new request once it reaches 0); the list holds the
responses the successive attempts receive, in order.  The third component of
the result counts the requests actually issued.  A failed attempt only logs
and immediately calls doRequest() again; a successful attempt runs the shared
success branch and stops. -/
def Conversation.createRetryLoop (c : Conversation) :
    Nat → List CreateResponse → Conversation × List Event × Nat
  | 0, _ => (c, [], 0)
  | _ + 1, [] => (c, [], 0)
  | t + 1, r :: rest =>
    match r with
    | CreateResponse.success cid tok e =>
      let p := c.createSuccess cid tok e
      (p.1, p.2, 1)
    | _ =>
      let p := c.createRetryLoop t rest
      (p.1, p.2.1, p.2.2 + 1)

/-- create() of the part_001 variant: let tries = 3 and run the doRequest
loop. -/
def Conversation.createRetry (c : Conversation) (rs : List CreateResponse) :
    Conversation × List Event × Nat :=
  c.createRetryLoop 3 rs

/-- sendMessage(message) of src/conversation.ts: set the hasSentMessage gate,
then issue one POST request whose callback only logs on every outcome, so the
response changes no state and emits nothing. -/
def Conversation.sendMessage (c : Conversation) (_message : String) (_r : SendResponse) :
    Conversation × List Event :=
  ({ c with hasSentMessage := true }, [])

/-- sendMessage(message) of the part_001 variant: set the hasSentMessage gate,
call startInterval(), then issue the request with tries = 1 (the callback only
logs, and the exhausted counter prevents a second attempt). -/
def Conversation.sendMessageRetry (c : Conversation) (_message : String) (_r : SendResponse) :
    Conversation × List Event :=
  ({ c with hasSentMessage := true } : Conversation).startInterval

/-- whenConnected(func, delayForFirstMessage): if conversationId is truthy,
call func() at once; otherwise register a once-listener on "connected". -/
def Conversation.whenConnected (c : Conversation) (funcId : Nat)
    (delayForFirstMessage : Option Nat) : Conversation × List Event :=
  if truthyStr c.conversationId then (c, [Event.invoke funcId 0])
  else ({ c with onceConnected := c.onceConnected ++ [(funcId, delayForFirstMessage)] }, [])

/-- The switch in the update() callback body, for one activity: a "message"
activity from someone other than the local user is surfaced once the
hasSentMessage gate is open; everything else is only logged. -/
def Conversation.handleActivity (c : Conversation) (act : IActivity) : Option Event :=
  if act.type = "message" then
    if act.from_.id = c.userId then none
    else if !c.hasSentMessage then none
    else some (Event.message act.text act)
  else none

/-- update() of src/conversation.ts: one GET request; on any of the three
failure checks the callback logs and returns; on success it stores the
watermark of the response and runs the switch over every activity. -/
def Conversation.update (c : Conversation) (r : PollResponse) : Conversation × List Event :=
  match r with
  | PollResponse.networkError => (c, [])
  | PollResponse.unparsableBody => (c, [])
  | PollResponse.errorField _ => (c, [])
  | PollResponse.success w acts =>
    let c := { c with watermark := some w }
    (c, acts.filterMap c.handleActivity)

/-- update() of the part_001 variant: first stopInterval() when more than 30
seconds have passed since lastUpdate (the idleExceeded flag), then one GET
request (tries = 1); on success the watermark is stored even when the
activities list is empty, and a non-empty list restarts the interval before
the switch runs. -/
def Conversation.updateIdle (c : Conversation) (idleExceeded : Bool) (r : PollResponse) :
    Conversation × List Event :=
  let p := if idleExceeded then c.stopInterval else (c, [])
  match r with
  | PollResponse.networkError => (p.1, p.2)
  | PollResponse.unparsableBody => (p.1, p.2)
  | PollResponse.errorField _ => (p.1, p.2)
  | PollResponse.success w acts =>
    let c := { p.1 with watermark := some w }
    if acts.isEmpty then (c, p.2)
    else
      let q := c.startInterval
      (q.1, p.2 ++ q.2 ++ acts.filterMap q.1.handleActivity)

/-- One externally driven step on a session: a public method call together
with the response its request callback receives (the public userId field is
caller-assignable, hence setUserId). -/
inductive Op where
  | create (r : CreateResponse)
  | sendMessage (message : String) (r : SendResponse)
  | startInterval
  | stopInterval
  | update (r : PollResponse)
  | whenConnected (funcId : Nat) (delayForFirstMessage : Option Nat)
  | setUserId (userId : String)
  deriving DecidableEq, Repr

/-- Apply one step to a session state. -/
def applyOp (c : Conversation) : Op → Conversation × List Event
  | Op.create r => c.create r
  | Op.sendMessage m r => c.sendMessage m r
  | Op.startInterval => c.startInterval
  | Op.stopInterval => c.stopInterval
  | Op.update r => c.update r
  | Op.whenConnected fid d => c.whenConnected fid d
  | Op.setUserId u => ({ c with userId := u }, [])

/-- Run a sequence of steps, concatenating the emitted events in order. -/
def runOps (c : Conversation) : List Op → Conversation × List Event
  | [] => (c, [])
  | op :: ops =>
    let p := applyOp c op
    let q := runOps p.1 ops
    (q.1, p.2 ++ q.2)

/-- Whether a step is a sendMessage call. -/
def Op.isSendMessage : Op → Bool
  | Op.sendMessage _ _ => true
  | _ => false

/-- Whether a create response is the success shape. -/
def CreateResponse.isSuccess : CreateResponse → Bool
  | CreateResponse.success _ _ _ => true
  | _ => false

/-- Whether an event is the invocation of the whenConnected callback with the
given id. -/
def Event.isInvokeOf (funcId : Nat) : Event → Bool
  | Event.invoke f _ => f == funcId
  | _ => false

/-- How many times the whenConnected callback with the given id is invoked in
an event list. -/
def countInvokes (funcId : Nat) (evs : List Event) : Nat :=
  (evs.filter (Event.isInvokeOf funcId)).length

/-- Sample polled activity authored by the local user u1. -/
def actFromU1 : IActivity :=
  { type := "message", id := "a1", timestamp := "2018-01-01T00:00:00Z",
    serviceUrl := "https://example.test", channelId := "directline",
    from_ := { id := "u1", name := "user" },
    conversation := { id := "c1", name := "conv" },
    recipient := { id := "bot", name := "bot" },
    text := "hi", replyToId := "" }

/-- Sample polled activity authored by the bot. -/
def actFromBot : IActivity :=
  { type := "message", id := "a2", timestamp := "2018-01-01T00:00:01Z",
    serviceUrl := "https://example.test", channelId := "directline",
    from_ := { id := "bot1", name := "bot" },
    conversation := { id := "c1", name := "conv" },
    recipient := { id := "u1", name := "user" },
    text := "hallo", replyToId := "" }

/-- Sample session state whose local user id is u1 and whose gate is open. -/
def convU1 : Conversation :=
  { userId := "u1", conversationId := some "c1", hasSentMessage := true }

/-- Full characterization of the success branch of create(): the four fields
are set, the watermark is reset, the pending once-listeners are consumed, and
the events are "connected" first, then the once-listener invocations, then the
events of startInterval(). -/
lemma create_success_eq (c : Conversation) (cid tok : String) (e : Nat) :
    c.create (CreateResponse.success cid tok e) =
      ({ c with conversationId := some cid, token := tok, expiresIn := e,
                watermark := none, timer := true, onceConnected := [] },
       Event.connected :: (c.onceConnected.map fireOnce ++
         ((if c.timer then [Event.stopped] else []) ++ [Event.started]))) := by
  obtain ⟨u, un, ci, tk, ei, wm, tm, hs, oc⟩ := c
  cases tm <;> rfl

/-- A failed create() of src/conversation.ts changes nothing and emits
nothing. -/
lemma create_failure_eq (c : Conversation) (r : CreateResponse)
    (h : r.isSuccess = false) : c.create r = (c, []) := by
  cases r with
  | networkError => rfl
  | unparsableBody => rfl
  | errorField e => rfl
  | success cid tok e => simp [CreateResponse.isSuccess] at h

/-- The switch of update() produces some event only for a qualifying message
activity, and then the event is the message notification for that activity. -/
lemma handleActivity_eq_some (c : Conversation) (a : IActivity) (e : Event)
    (h : c.handleActivity a = some e) :
    e = Event.message a.text a ∧ a.type = "message" ∧ a.from_.id ≠ c.userId ∧
      c.hasSentMessage = true := by
  unfold Conversation.handleActivity at h
  split at h
  · split at h
    · exact absurd h (by simp)
    · split at h
      · exact absurd h (by simp)
      · rename_i h1 h2 h3
        simp only [Bool.not_eq_true', Bool.not_eq_false] at h3
        exact ⟨by injection h with h; exact h.symm, h1, h2, h3⟩
  · exact absurd h (by simp)

/-- Membership characterization of the message notifications emitted by a
successfully parsed poll in src/conversation.ts. -/
lemma mem_update_message (c : Conversation) (w : Nat) (acts : List IActivity)
    (t : String) (a : IActivity) :
    Event.message t a ∈ (c.update (PollResponse.success w acts)).2 ↔
      a ∈ acts ∧ t = a.text ∧ a.type = "message" ∧ a.from_.id ≠ c.userId ∧
        c.hasSentMessage = true := by
  simp only [Conversation.update, List.mem_filterMap]
  constructor
  · rintro ⟨x, hx, hfx⟩
    obtain ⟨he, hty, hfrom, hsent⟩ := handleActivity_eq_some _ _ _ hfx
    injection he with h1 h2
    subst h2
    exact ⟨hx, h1, hty, hfrom, hsent⟩
  · rintro ⟨hmem, ht, hty, hfrom, hsent⟩
    refine ⟨a, hmem, ?_⟩
    subst ht
    simp [Conversation.handleActivity, hty, hfrom, hsent]

/-- A session whose gate is closed surfaces no message notification from any
poll outcome. -/
lemma no_message_of_not_sent (c : Conversation) (r : PollResponse)
    (h : c.hasSentMessage = false) (t : String) (a : IActivity) :
    Event.message t a ∉ (c.update r).2 := by
  cases r with
  | networkError => simp [Conversation.update]
  | unparsableBody => simp [Conversation.update]
  | errorField e => simp [Conversation.update]
  | success w acts =>
    rw [mem_update_message]
    rintro ⟨-, -, -, -, hsent⟩
    rw [h] at hsent
    exact Bool.false_ne_true hsent

/-- Unfolding equation for a run of one step followed by the rest. -/
lemma runOps_cons (c : Conversation) (op : Op) (ops : List Op) :
    runOps c (op :: ops) =
      ((runOps (applyOp c op).1 ops).1,
        (applyOp c op).2 ++ (runOps (applyOp c op).1 ops).2) := rfl

/-- The hasSentMessage gate after one step: it is set by sendMessage and
preserved by every other step. -/
lemma hasSent_applyOp (c : Conversation) (op : Op) :
    (applyOp c op).1.hasSentMessage = (c.hasSentMessage || op.isSendMessage) := by
  cases op with
  | create r =>
    cases r with
    | networkError => simp [applyOp, Conversation.create, Op.isSendMessage]
    | unparsableBody => simp [applyOp, Conversation.create, Op.isSendMessage]
    | errorField e => simp [applyOp, Conversation.create, Op.isSendMessage]
    | success cid tok e =>
      simp only [applyOp, Op.isSendMessage, Bool.or_false]
      rw [create_success_eq]
  | sendMessage m r => simp [applyOp, Conversation.sendMessage, Op.isSendMessage]
  | startInterval =>
    simp only [applyOp, Op.isSendMessage, Bool.or_false,
      Conversation.startInterval, Conversation.stopInterval]
    split <;> rfl
  | stopInterval =>
    simp only [applyOp, Op.isSendMessage, Bool.or_false, Conversation.stopInterval]
    split <;> rfl
  | update r =>
    cases r <;> simp [applyOp, Conversation.update, Op.isSendMessage]
  | whenConnected fid d =>
    simp only [applyOp, Op.isSendMessage, Bool.or_false, Conversation.whenConnected]
    split <;> rfl
  | setUserId u => simp [applyOp, Op.isSendMessage]

/-- The hasSentMessage gate after a run: open exactly when it was open before
or some step of the run is a sendMessage call. -/
lemma hasSent_runOps (ops : List Op) : ∀ c : Conversation,
    (runOps c ops).1.hasSentMessage = (c.hasSentMessage || ops.any Op.isSendMessage) := by
  induction ops with
  | nil => intro c; simp [runOps]
  | cons op ops ih =>
    intro c
    rw [runOps_cons]
    simp only [List.any_cons]
    rw [ih, hasSent_applyOp, Bool.or_assoc]

/-- A fresh session (any constructor argument) has a closed gate, an empty
once-listener list, and an empty token. -/
lemma new_fields (cid : Option String) :
    (Conversation.new cid).1.hasSentMessage = false ∧
      (Conversation.new cid).1.onceConnected = [] ∧
      (Conversation.new cid).1.token = "" := by
  unfold Conversation.new Conversation.startInterval Conversation.stopInterval
  split <;> exact ⟨rfl, rfl, rfl⟩

/-- The switch of update() never emits an invoke event. -/
lemma filter_invoke_filterMap (c : Conversation) (fid : Nat) (acts : List IActivity) :
    (acts.filterMap c.handleActivity).filter (Event.isInvokeOf fid) = [] := by
  rw [List.filter_eq_nil_iff]
  intro e he
  rcases List.mem_filterMap.mp he with ⟨a, -, ha⟩
  obtain ⟨he2, -, -, -⟩ := handleActivity_eq_some _ _ _ ha
  subst he2
  simp [Event.isInvokeOf]

/-- The switch of update() never emits the "connected" notification. -/
lemma connected_not_mem_filterMap (c : Conversation) (acts : List IActivity) :
    Event.connected ∉ acts.filterMap c.handleActivity := by
  intro he
  rcases List.mem_filterMap.mp he with ⟨a, -, ha⟩
  obtain ⟨he2, -, -, -⟩ := handleActivity_eq_some _ _ _ ha
  exact Event.noConfusion he2

/-- Filtering the once-listener invocations for one callback id picks out the
registrations carrying that id. -/
lemma filter_invoke_map_fireOnce (fid : Nat) (l : List (Nat × Option Nat)) :
    (l.map fireOnce).filter (Event.isInvokeOf fid) =
      (l.filter (fun p => p.1 == fid)).map fireOnce := by
  induction l with
  | nil => rfl
  | cons p l ih =>
    obtain ⟨f, dd⟩ := p
    cases h : (f == fid) <;>
      simp [fireOnce, Event.isInvokeOf, List.filter_cons, h, ih]

/-- Only a successful create() emits the "connected" notification. -/
lemma connected_mem_applyOp (c : Conversation) (op : Op)
    (h : Event.connected ∈ (applyOp c op).2) :
    ∃ cid tok e, op = Op.create (CreateResponse.success cid tok e) := by
  cases op with
  | create r =>
    cases r with
    | success cid tok e => exact ⟨cid, tok, e, rfl⟩
    | networkError => simp [applyOp, Conversation.create] at h
    | unparsableBody => simp [applyOp, Conversation.create] at h
    | errorField e => simp [applyOp, Conversation.create] at h
  | sendMessage m r => simp [applyOp, Conversation.sendMessage] at h
  | startInterval =>
    by_cases ht : c.timer <;>
      simp [applyOp, Conversation.startInterval, Conversation.stopInterval, ht] at h
  | stopInterval =>
    by_cases ht : c.timer <;> simp [applyOp, Conversation.stopInterval, ht] at h
  | update r =>
    cases r with
    | networkError => simp [applyOp, Conversation.update] at h
    | unparsableBody => simp [applyOp, Conversation.update] at h
    | errorField e => simp [applyOp, Conversation.update] at h
    | success w acts =>
      simp only [applyOp, Conversation.update] at h
      exact absurd h (connected_not_mem_filterMap _ _)
  | whenConnected fid d =>
    by_cases hc : truthyStr c.conversationId <;>
      simp [applyOp, Conversation.whenConnected, hc] at h
  | setUserId u => simp [applyOp] at h

/-- A run containing no create() step never emits "connected". -/
lemma no_create_no_connected (ops : List Op) : ∀ c : Conversation,
    (∀ r, Op.create r ∉ ops) → Event.connected ∉ (runOps c ops).2 := by
  induction ops with
  | nil => intro c _; simp [runOps]
  | cons op ops ih =>
    intro c hno
    rw [runOps_cons]
    simp only [List.mem_append]
    rintro (h | h)
    · obtain ⟨cid, tok, e, rfl⟩ := connected_mem_applyOp _ _ h
      exact hno _ (List.mem_cons_self _ _)
    · exact ih _ (fun r hr => hno r (List.mem_cons_of_mem _ hr)) h

/-- For any step that is neither a successful create() nor a whenConnected
call for the given callback id: the step invokes that callback in no way,
emits no "connected", and leaves the pending registrations for that id
untouched. -/
lemma step_preserves_registration (c : Conversation) (op : Op) (fid : Nat)
    (hop : ∀ cid tok e, op ≠ Op.create (CreateResponse.success cid tok e))
    (hwc : ∀ dd, op ≠ Op.whenConnected fid dd) :
    (applyOp c op).2.filter (Event.isInvokeOf fid) = [] ∧
      Event.connected ∉ (applyOp c op).2 ∧
      (applyOp c op).1.onceConnected.filter (fun p => p.1 == fid) =
        c.onceConnected.filter (fun p => p.1 == fid) := by
  cases op with
  | create r =>
    cases r with
    | networkError => exact ⟨rfl, by simp [applyOp, Conversation.create], rfl⟩
    | unparsableBody => exact ⟨rfl, by simp [applyOp, Conversation.create], rfl⟩
    | errorField e => exact ⟨rfl, by simp [applyOp, Conversation.create], rfl⟩
    | success cid tok e => exact absurd rfl (hop cid tok e)
  | sendMessage m r => exact ⟨rfl, by simp [applyOp, Conversation.sendMessage], rfl⟩
  | startInterval =>
    by_cases ht : c.timer <;>
      exact ⟨by simp [applyOp, Conversation.startInterval, Conversation.stopInterval, ht,
               Event.isInvokeOf],
             by simp [applyOp, Conversation.startInterval, Conversation.stopInterval, ht],
             by simp [applyOp, Conversation.startInterval, Conversation.stopInterval, ht]⟩
  | stopInterval =>
    by_cases ht : c.timer <;>
      exact ⟨by simp [applyOp, Conversation.stopInterval, ht, Event.isInvokeOf],
             by simp [applyOp, Conversation.stopInterval, ht],
             by simp [applyOp, Conversation.stopInterval, ht]⟩
  | update r =>
    cases r with
    | networkError => exact ⟨rfl, by simp [applyOp, Conversation.update], rfl⟩
    | unparsableBody => exact ⟨rfl, by simp [applyOp, Conversation.update], rfl⟩
    | errorField e => exact ⟨rfl, by simp [applyOp, Conversation.update], rfl⟩
    | success w acts =>
      exact ⟨filter_invoke_filterMap _ fid acts, connected_not_mem_filterMap _ acts, rfl⟩
  | whenConnected f dd =>
    have hf : f ≠ fid := by
      intro h
      exact hwc dd (by rw [h])
    by_cases hc : truthyStr c.conversationId
    · exact ⟨by simp [applyOp, Conversation.whenConnected, hc, Event.isInvokeOf, hf],
             by simp [applyOp, Conversation.whenConnected, hc],
             by simp [applyOp, Conversation.whenConnected, hc]⟩
    · exact ⟨by simp [applyOp, Conversation.whenConnected, hc],
             by simp [applyOp, Conversation.whenConnected, hc],
             by simp [applyOp, Conversation.whenConnected, hc, List.filter_append, hf]⟩
  | setUserId u => exact ⟨rfl, by simp [applyOp], rfl⟩

/-- The invoke events of a successful create() are exactly the pending
registrations for the id, fired in order. -/
lemma filter_invoke_create_success (c : Conversation) (cid tok : String) (e fid : Nat) :
    (c.create (CreateResponse.success cid tok e)).2.filter (Event.isInvokeOf fid) =
      (c.onceConnected.filter (fun p => p.1 == fid)).map fireOnce := by
  rw [create_success_eq]
  by_cases ht : c.timer <;>
    simp [ht, Event.isInvokeOf, List.filter_append, filter_invoke_map_fireOnce]

/-- A successful create() emits "connected". -/
lemma connected_mem_create_success (c : Conversation) (cid tok : String) (e : Nat) :
    Event.connected ∈ (c.create (CreateResponse.success cid tok e)).2 := by
  rw [create_success_eq]
  exact List.mem_cons_self _ _

/-- A successful create() consumes every pending once-listener. -/
lemma onceConnected_create_success (c : Conversation) (cid tok : String) (e : Nat) :
    (c.create (CreateResponse.success cid tok e)).1.onceConnected = [] := by
  rw [create_success_eq]

/-- With no pending registration for a callback id and no whenConnected call
for it in the run, the callback is never invoked. -/
lemma no_reg_no_invoke (fid : Nat) (ops : List Op) : ∀ c : Conversation,
    c.onceConnected.filter (fun p => p.1 == fid) = [] →
    (∀ d, Op.whenConnected fid d ∉ ops) →
    (runOps c ops).2.filter (Event.isInvokeOf fid) = [] := by
  induction ops with
  | nil => intro c _ _; simp [runOps]
  | cons op ops ih =>
    intro c hreg hops
    have hops' : ∀ d, Op.whenConnected fid d ∉ ops :=
      fun d hd => hops d (List.mem_cons_of_mem _ hd)
    rw [runOps_cons, List.filter_append, List.append_eq_nil]
    by_cases hcs : ∃ cid tok e, op = Op.create (CreateResponse.success cid tok e)
    · obtain ⟨cid, tok, e, rfl⟩ := hcs
      constructor
      · show (Conversation.create c _).2.filter _ = []
        rw [filter_invoke_create_success, hreg]
        rfl
      · refine ih _ ?_ hops'
        show (Conversation.create c _).1.onceConnected.filter _ = []
        rw [onceConnected_create_success]
        rfl
    · have hwc : ∀ dd, op ≠ Op.whenConnected fid dd := by
        intro dd h
        exact hops dd (h ▸ List.mem_cons_self _ _)
      push_neg at hcs
      obtain ⟨h1, h2, h3⟩ := step_preserves_registration c op fid hcs hwc
      exact ⟨h1, ih _ (h3.trans hreg) hops'⟩

/-- With exactly one pending registration for a callback id and no further
whenConnected call for it, a run invokes the callback exactly at the first
"connected" emission, with the wait the registration prescribes, and never
again. -/
lemma one_reg_invoke (fid : Nat) (d : Option Nat) (ops : List Op) : ∀ c : Conversation,
    c.onceConnected.filter (fun p => p.1 == fid) = [(fid, d)] →
    (∀ d', Op.whenConnected fid d' ∉ ops) →
    (runOps c ops).2.filter (Event.isInvokeOf fid) =
      (if Event.connected ∈ (runOps c ops).2 then [fireOnce (fid, d)] else []) := by
  induction ops with
  | nil => intro c _ _; simp [runOps]
  | cons op ops ih =>
    intro c hreg hops
    have hops' : ∀ d', Op.whenConnected fid d' ∉ ops :=
      fun d' hd => hops d' (List.mem_cons_of_mem _ hd)
    rw [runOps_cons, List.filter_append]
    by_cases hcs : ∃ cid tok e, op = Op.create (CreateResponse.success cid tok e)
    · obtain ⟨cid, tok, e, rfl⟩ := hcs
      have h1 : (applyOp c (Op.create (CreateResponse.success cid tok e))).2.filter
          (Event.isInvokeOf fid) = [fireOnce (fid, d)] := by
        show (Conversation.create c _).2.filter _ = _
        rw [filter_invoke_create_success, hreg]
        rfl
      have h2 : (runOps (applyOp c (Op.create (CreateResponse.success cid tok e))).1 ops).2.filter
          (Event.isInvokeOf fid) = [] := by
        refine no_reg_no_invoke fid ops _ ?_ hops'
        show (Conversation.create c _).1.onceConnected.filter _ = []
        rw [onceConnected_create_success]
        rfl
      have h3 : Event.connected ∈
          (applyOp c (Op.create (CreateResponse.success cid tok e))).2 ++
            (runOps (applyOp c (Op.create (CreateResponse.success cid tok e))).1 ops).2 :=
        List.mem_append.mpr (Or.inl (connected_mem_create_success c cid tok e))
      rw [h1, h2, if_pos h3, List.append_nil]
    · have hwc : ∀ dd, op ≠ Op.whenConnected fid dd := by
        intro dd h
        exact hops dd (h ▸ List.mem_cons_self _ _)
      push_neg at hcs
      obtain ⟨h1, h2, h3⟩ := step_preserves_registration c op fid hcs hwc
      rw [h1, List.nil_append, ih _ (h3.trans hreg) hops']
      by_cases h : Event.connected ∈ (runOps (applyOp c op).1 ops).2 <;>
        simp [List.mem_append, h2, h]

/-- Running the doRequest loop of create() when every received response is a
failure: the state and the notifications are untouched and the number of
requests is the tries budget capped by the number of responses supplied. -/
lemma createRetryLoop_all_fail (c : Conversation) (t : Nat) (rs : List CreateResponse)
    (h : ∀ r ∈ rs, r.isSuccess = false) :
    c.createRetryLoop t rs = (c, [], min t rs.length) := by
  induction rs generalizing t with
  | nil => cases t <;> simp [Conversation.createRetryLoop]
  | cons r rest ih =>
    cases t with
    | zero => simp [Conversation.createRetryLoop]
    | succ t =>
      have hr := h r (List.mem_cons_self _ _)
      have ih' := ih t (fun x hx => h x (List.mem_cons_of_mem _ hx))
      cases r with
      | success cid tok e => simp [CreateResponse.isSuccess] at hr
      | networkError =>
        simp [Conversation.createRetryLoop, ih', Nat.succ_min_succ]
      | unparsableBody =>
        simp [Conversation.createRetryLoop, ih', Nat.succ_min_succ]
      | errorField e =>
        simp [Conversation.createRetryLoop, ih', Nat.succ_min_succ]

/-- The doRequest loop of create() never issues more requests than its tries
budget. -/
lemma createRetryLoop_le (c : Conversation) (t : Nat) (rs : List CreateResponse) :
    (c.createRetryLoop t rs).2.2 ≤ t := by
  induction rs generalizing t with
  | nil => cases t <;> simp [Conversation.createRetryLoop]
  | cons r rest ih =>
    cases t with
    | zero => simp [Conversation.createRetryLoop]
    | succ t =>
      cases r with
      | success cid tok e =>
        simp only [Conversation.createRetryLoop]
        omega
      | networkError =>
        simp only [Conversation.createRetryLoop]
        exact Nat.succ_le_succ (ih t)
      | unparsableBody =>
        simp only [Conversation.createRetryLoop]
        exact Nat.succ_le_succ (ih t)
      | errorField e =>
        simp only [Conversation.createRetryLoop]
        exact Nat.succ_le_succ (ih t)

/-- C1: the retrying create() makes at most 3 attempts; when every attempt
fails (network error, unparsable body, or error field in the response) the
session state is unchanged, nothing is emitted — in particular no "connected"
notification — and the callback chain returns normally instead of raising;
each retry is an immediate recursive doRequest call with no timer between
attempts.  The single-attempt create() of src/conversation.ts likewise
changes nothing and emits nothing on a failed attempt. -/
theorem create_failure_retries_bounded (c : Conversation) (rs : List CreateResponse)
    (r : CreateResponse) :
    ((c.createRetry rs).2.2 ≤ 3) ∧
      ((∀ x ∈ rs, x.isSuccess = false) →
        c.createRetry rs = (c, [], min 3 rs.length) ∧
          Event.connected ∉ (c.createRetry rs).2.1) ∧
      (r.isSuccess = false → c.create r = (c, [])) := by
  refine ⟨createRetryLoop_le c 3 rs, fun h => ?_, create_failure_eq c r⟩
  have heq : c.createRetry rs = (c, [], min 3 rs.length) := createRetryLoop_all_fail c 3 rs h
  refine ⟨heq, ?_⟩
  rw [heq]
  simp

/-- Witness for C1 at a session with three straight network errors. -/
theorem create_failure_retries_bounded_witness :
    ((Conversation.new none).1.createRetry
        [CreateResponse.networkError, CreateResponse.networkError,
          CreateResponse.networkError] =
      ((Conversation.new none).1, [], min 3 3)) ∧
      Event.connected ∉ ((Conversation.new none).1.createRetry
        [CreateResponse.networkError, CreateResponse.networkError,
          CreateResponse.networkError]).2.1 ∧
      (Conversation.new none).1.create CreateResponse.networkError =
        ((Conversation.new none).1, []) := by
  have h := create_failure_retries_bounded (Conversation.new none).1
    [CreateResponse.networkError, CreateResponse.networkError, CreateResponse.networkError]
    CreateResponse.networkError
  exact ⟨(h.2.1 (by decide)).1, (h.2.1 (by decide)).2, h.2.2 rfl⟩

/-- C4: after every successful poll (response parsed, no error field) the
watermark of the session equals the watermark of that response, in both
source variants, including when the activities list is empty. -/
theorem watermark_set_after_successful_poll (c : Conversation) (w : Nat)
    (acts : List IActivity) (idleExceeded : Bool) :
    (c.update (PollResponse.success w acts)).1.watermark = some w ∧
      (c.updateIdle idleExceeded (PollResponse.success w acts)).1.watermark = some w ∧
      (c.update (PollResponse.success w [])).1.watermark = some w := by
  obtain ⟨u, un, ci, tk, ei, wm, tm, hs, oc⟩ := c
  cases tm <;> cases idleExceeded <;> cases acts <;> exact ⟨rfl, rfl, rfl⟩

/-- C5: a message activity whose from.id equals the local userId is never
surfaced: no message notification carrying that activity is emitted by a
successfully parsed poll. -/
theorem own_messages_never_emitted (c : Conversation) (w : Nat)
    (acts : List IActivity) (a : IActivity) (t : String)
    (_ha : a ∈ acts) (hid : a.from_.id = c.userId) :
    Event.message t a ∉ (c.update (PollResponse.success w acts)).2 := by
  rw [mem_update_message]
  rintro ⟨-, -, -, hne, -⟩
  exact hne hid

/-- Witness for C5 at the spec scenario: watermark 5, one message activity
authored by u1, local user u1. -/
theorem own_messages_never_emitted_witness :
    Event.message "hi" actFromU1 ∉ (convU1.update (PollResponse.success 5 [actFromU1])).2 :=
  own_messages_never_emitted convU1 5 [actFromU1] actFromU1 "hi"
    (List.mem_singleton.mpr rfl) rfl

/-- C6: a parsable create() response with no error field sets conversationId,
token and expiresIn from the response, resets the watermark to null, emits
"connected", and then starts polling: "connected" is emitted first and
"started" last (a pre-existing timer contributes a "stopped" in between, and
pending whenConnected listeners run at the "connected" emission). -/
theorem create_success_sets_state_and_events (c : Conversation) (cid tok : String) (e : Nat) :
    c.create (CreateResponse.success cid tok e) =
      ({ c with conversationId := some cid, token := tok, expiresIn := e,
                watermark := none, timer := true, onceConnected := [] },
       Event.connected :: (c.onceConnected.map fireOnce ++
         ((if c.timer then [Event.stopped] else []) ++ [Event.started]))) :=
  create_success_eq c cid tok e

/-- C8: stopInterval() is idempotent: with no active timer it changes no
state and emits nothing; with an active timer it clears the timer field and
emits "stopped" exactly once. -/
theorem stopInterval_idempotent (c : Conversation) :
    (c.timer = false → c.stopInterval = (c, [])) ∧
      (c.timer = true → c.stopInterval = ({ c with timer := false }, [Event.stopped])) := by
  constructor <;> intro h <;> simp [Conversation.stopInterval, h]

/-- Witness for C8 in both the stopped and the polling state. -/
theorem stopInterval_idempotent_witness :
    ((Conversation.new none).1.stopInterval = ((Conversation.new none).1, [])) ∧
      ((Conversation.new (some "c1")).1.stopInterval =
        ({ (Conversation.new (some "c1")).1 with timer := false }, [Event.stopped])) :=
  ⟨(stopInterval_idempotent _).1 (by decide), (stopInterval_idempotent _).2 (by decide)⟩

/-- C2: as long as no step of a run is a sendMessage() call, no poll outcome
surfaces any message notification; once some step of the run is a
sendMessage() call, every polled activity of type message whose sender id
differs from the current userId is surfaced with its text and the activity
itself. -/
theorem message_gate_before_and_after_send (cid : Option String) (ops : List Op)
    (r : PollResponse) (w : Nat) (acts : List IActivity) :
    ((∀ op ∈ ops, op.isSendMessage = false) →
      ∀ t a, Event.message t a ∉ ((runOps (Conversation.new cid).1 ops).1.update r).2) ∧
      ((∃ op ∈ ops, op.isSendMessage = true) →
        ∀ a ∈ acts, a.type = "message" →
          a.from_.id ≠ (runOps (Conversation.new cid).1 ops).1.userId →
          Event.message a.text a ∈
            ((runOps (Conversation.new cid).1 ops).1.update (PollResponse.success w acts)).2) := by
  have hbase := (new_fields cid).1
  constructor
  · intro hnone t a
    apply no_message_of_not_sent
    rw [hasSent_runOps, hbase, Bool.false_or, List.any_eq_false]
    intro op hop
    simp [hnone op hop]
  · rintro ⟨op, hop, hsend⟩ a ha hty hfrom
    rw [mem_update_message]
    refine ⟨ha, rfl, hty, hfrom, ?_⟩
    rw [hasSent_runOps, hbase, Bool.false_or, List.any_eq_true]
    exact ⟨op, hop, hsend⟩

/-- Witness for C2: with no send in the run the bot message is suppressed;
after one (even failed) send it is surfaced. -/
theorem message_gate_before_and_after_send_witness :
    (Event.message "hallo" actFromBot ∉
        ((runOps (Conversation.new none).1 []).1.update
          (PollResponse.success 5 [actFromBot])).2) ∧
      Event.message actFromBot.text actFromBot ∈
        ((runOps (Conversation.new none).1
            [Op.sendMessage "hallo" SendResponse.networkError]).1.update
          (PollResponse.success 5 [actFromBot])).2 :=
  ⟨(message_gate_before_and_after_send none [] (PollResponse.success 5 [actFromBot])
      5 [actFromBot]).1 (by simp) "hallo" actFromBot,
   (message_gate_before_and_after_send none [Op.sendMessage "hallo" SendResponse.networkError]
      (PollResponse.success 5 [actFromBot]) 5 [actFromBot]).2
      ⟨Op.sendMessage "hallo" SendResponse.networkError, by simp, rfl⟩ actFromBot
      (List.mem_singleton.mpr rfl) rfl (by decide)⟩

/-- C9: sendMessage sets the hasSentMessage gate in its synchronous prefix,
before the request is issued, so the outcome of the send (any response,
including failures) cannot close it again; the gate then stays open across
every further step of the session, so qualifying polled messages stay
surfaced.  The part_001 retry variant sets the gate the same way. -/
theorem sendMessage_sets_gate_permanently (c : Conversation) (m : String)
    (r : SendResponse) (ops : List Op) :
    ((c.sendMessage m r).1.hasSentMessage = true) ∧
      ((c.sendMessageRetry m r).1.hasSentMessage = true) ∧
      ((runOps (c.sendMessage m r).1 ops).1.hasSentMessage = true) ∧
      (∀ w acts a, a ∈ acts → a.type = "message" →
        a.from_.id ≠ (runOps (c.sendMessage m r).1 ops).1.userId →
        Event.message a.text a ∈
          ((runOps (c.sendMessage m r).1 ops).1.update (PollResponse.success w acts)).2) := by
  have hsent : (c.sendMessage m r).1.hasSentMessage = true := rfl
  have hrun : (runOps (c.sendMessage m r).1 ops).1.hasSentMessage = true := by
    rw [hasSent_runOps, hsent, Bool.true_or]
  refine ⟨hsent, ?_, hrun, ?_⟩
  · show (({ c with hasSentMessage := true } : Conversation).startInterval).1.hasSentMessage = true
    unfold Conversation.startInterval Conversation.stopInterval
    split <;> rfl
  · intro w acts a ha hty hfrom
    rw [mem_update_message]
    exact ⟨ha, rfl, hty, hfrom, hrun⟩

/-- Witness for C9: a network-failed send still opens the gate, and after a
further stopInterval() step the bot message is surfaced by a poll. -/
theorem sendMessage_sets_gate_permanently_witness :
    Event.message actFromBot.text actFromBot ∈
      ((runOps ((Conversation.new none).1.sendMessage "Hallo?" SendResponse.networkError).1
          [Op.stopInterval]).1.update (PollResponse.success 7 [actFromBot])).2 :=
  (sendMessage_sets_gate_permanently (Conversation.new none).1 "Hallo?"
      SendResponse.networkError [Op.stopInterval]).2.2.2 7 [actFromBot] actFromBot
    (List.mem_singleton.mpr rfl) rfl (by decide)

/-- C3 (amended): across every step of a session, the watermark changes only
at a successfully parsed, error-free poll response — where it becomes the
server-provided value, with no forward-movement check — or at a successful
create(), where it is reset to null. -/
theorem watermark_change_only_poll_or_create (c : Conversation) (op : Op)
    (h : (applyOp c op).1.watermark ≠ c.watermark) :
    (∃ w acts, op = Op.update (PollResponse.success w acts) ∧
        (applyOp c op).1.watermark = some w) ∨
      (∃ cid tok e, op = Op.create (CreateResponse.success cid tok e) ∧
        (applyOp c op).1.watermark = none) := by
  cases op with
  | create r =>
    cases r with
    | success cid tok e =>
      refine Or.inr ⟨cid, tok, e, rfl, ?_⟩
      show (c.create (CreateResponse.success cid tok e)).1.watermark = none
      rw [create_success_eq]
    | networkError => exact absurd rfl h
    | unparsableBody => exact absurd rfl h
    | errorField e => exact absurd rfl h
  | update r =>
    cases r with
    | success w acts => exact Or.inl ⟨w, acts, rfl, rfl⟩
    | networkError => exact absurd rfl h
    | unparsableBody => exact absurd rfl h
    | errorField e => exact absurd rfl h
  | sendMessage m r => exact absurd rfl h
  | startInterval =>
    refine absurd ?_ h
    show (c.startInterval).1.watermark = c.watermark
    unfold Conversation.startInterval Conversation.stopInterval
    split <;> rfl
  | stopInterval =>
    refine absurd ?_ h
    show (c.stopInterval).1.watermark = c.watermark
    unfold Conversation.stopInterval
    split <;> rfl
  | whenConnected fid d =>
    refine absurd ?_ h
    show (c.whenConnected fid d).1.watermark = c.watermark
    unfold Conversation.whenConnected
    split <;> rfl
  | setUserId u => exact absurd rfl h

/-- Witness for the amended C3 at a create() step that resets a watermark. -/
theorem watermark_change_only_poll_or_create_witness :
    (∃ w acts,
        Op.create (CreateResponse.success "c1" "t1" 1800) =
          Op.update (PollResponse.success w acts) ∧
        (applyOp { convU1 with watermark := some 5 }
            (Op.create (CreateResponse.success "c1" "t1" 1800))).1.watermark = some w) ∨
      (∃ cid tok e,
        Op.create (CreateResponse.success "c1" "t1" 1800) =
          Op.create (CreateResponse.success cid tok e) ∧
        (applyOp { convU1 with watermark := some 5 }
            (Op.create (CreateResponse.success "c1" "t1" 1800))).1.watermark = none) :=
  watermark_change_only_poll_or_create { convU1 with watermark := some 5 }
    (Op.create (CreateResponse.success "c1" "t1" 1800)) (by decide)

/-- C3 counterexample: a concrete run in which the watermark, after a
successful poll stored 5, is changed by a successful create() — a step that
is not the parsing of a poll response — back to null ("from the beginning"),
and in which the next poll overwrites a stored 5 with the numerically smaller
server value 3; so the watermark does change outside poll parsing and is not
prevented from regressing. -/
theorem watermark_regression_cex :
    ((((Conversation.new (some "c0")).1.update (PollResponse.success 5 [])).1.watermark =
        some 5) ∧
      ((((Conversation.new (some "c0")).1.update (PollResponse.success 5 [])).1.create
          (CreateResponse.success "c1" "t1" 1800)).1.watermark = none) ∧
      ((((Conversation.new (some "c0")).1.update (PollResponse.success 5 [])).1.update
          (PollResponse.success 3 [])).1.watermark = some 3)) :=
  ⟨by decide, by decide, by decide⟩

/-- C10: constructing with a non-empty conversationId immediately starts the
polling timer and emits "started" from the constructor, with the auth token
still the empty string and no create() handshake performed; without a later
create() step such a session never emits "connected", yet whenConnected
treats it as already connected and runs its callback at once. -/
theorem preseeded_constructor_behavior (cid : String) (hcid : cid ≠ "")
    (ops : List Op) (hops : ∀ r, Op.create r ∉ ops) (fid : Nat) (d : Option Nat) :
    Conversation.new (some cid) =
      ({ conversationId := some cid, timer := true }, [Event.started]) ∧
      (Conversation.new (some cid)).1.token = "" ∧
      Event.connected ∉ (runOps (Conversation.new (some cid)).1 ops).2 ∧
      (Conversation.new (some cid)).1.whenConnected fid d =
        ((Conversation.new (some cid)).1, [Event.invoke fid 0]) := by
  have ht : truthyStr (some cid) = true := by
    simp [truthyStr, hcid]
  have hnew : Conversation.new (some cid) =
      ({ conversationId := some cid, timer := true }, [Event.started]) := by
    unfold Conversation.new
    rw [if_pos ht]
    rfl
  have htr : truthyStr (Conversation.new (some cid)).1.conversationId = true := by
    rw [hnew]
    exact ht
  refine ⟨hnew, by rw [hnew], no_create_no_connected ops _ hops, ?_⟩
  unfold Conversation.whenConnected
  rw [if_pos htr]

/-- Witness for C10 at conversationId c1 and a run of one poll step. -/
theorem preseeded_constructor_behavior_witness :
    (Conversation.new (some "c1") =
      ({ conversationId := some "c1", timer := true }, [Event.started])) ∧
      Event.connected ∉
        (runOps (Conversation.new (some "c1")).1 [Op.update (PollResponse.success 1 [])]).2 ∧
      (Conversation.new (some "c1")).1.whenConnected 0 none =
        ((Conversation.new (some "c1")).1, [Event.invoke 0 0]) := by
  have h := preseeded_constructor_behavior "c1" (by decide)
    [Op.update (PollResponse.success 1 [])] (fun r hr => by simp at hr) 0 none
  exact ⟨h.1, h.2.2.1, h.2.2.2⟩

/-- C7: a whenConnected(func, d) call on a session with a truthy
conversationId runs func at once (wait 0) and changes nothing; on a session
with a falsy conversationId it registers func once, and over any following
run that does not register the same callback again, func runs exactly once as
soon as a "connected" notification is emitted — and not at all if none is —
waiting d milliseconds when d is provided and running immediately otherwise
(a provided d of 0 is falsy in the source and also gives an immediate run,
i.e. a wait of 0 = d.getD 0). -/
theorem whenConnected_once_semantics (c : Conversation) (fid : Nat) (d : Option Nat)
    (ops : List Op)
    (hfresh : c.onceConnected.filter (fun p => p.1 == fid) = [])
    (hops : ∀ d', Op.whenConnected fid d' ∉ ops) :
    (truthyStr c.conversationId = true →
      c.whenConnected fid d = (c, [Event.invoke fid 0])) ∧
      (truthyStr c.conversationId = false →
        (∀ k, countInvokes fid (runOps (c.whenConnected fid d).1 (ops.take k)).2 =
            (if Event.connected ∈ (runOps (c.whenConnected fid d).1 (ops.take k)).2
              then 1 else 0)) ∧
          (∀ w, Event.invoke fid w ∈ (runOps (c.whenConnected fid d).1 ops).2 →
            w = d.getD 0)) := by
  constructor
  · intro h
    unfold Conversation.whenConnected
    rw [if_pos h]
  · intro h
    have hreg1 : (c.whenConnected fid d).1.onceConnected.filter
        (fun p => p.1 == fid) = [(fid, d)] := by
      unfold Conversation.whenConnected
      rw [if_neg (by simp [h])]
      simp [List.filter_append, hfresh]
    constructor
    · intro k
      have htake : ∀ d', Op.whenConnected fid d' ∉ ops.take k :=
        fun d' hd => hops d' (List.take_subset _ _ hd)
      have hfil := one_reg_invoke fid d (ops.take k) (c.whenConnected fid d).1 hreg1 htake
      unfold countInvokes
      rw [hfil]
      by_cases hmem :
          Event.connected ∈ (runOps (c.whenConnected fid d).1 (ops.take k)).2 <;>
        simp [hmem]
    · intro w hw
      have hfil := one_reg_invoke fid d ops (c.whenConnected fid d).1 hreg1 hops
      have hmemf : Event.invoke fid w ∈
          (runOps (c.whenConnected fid d).1 ops).2.filter (Event.isInvokeOf fid) := by
        rw [List.mem_filter]
        exact ⟨hw, by simp [Event.isInvokeOf]⟩
      rw [hfil] at hmemf
      by_cases hmem : Event.connected ∈ (runOps (c.whenConnected fid d).1 ops).2
      · rw [if_pos hmem] at hmemf
        have heq : Event.invoke fid w = fireOnce (fid, d) := List.mem_singleton.mp hmemf
        unfold fireOnce at heq
        injection heq with h1 h2
        cases d with
        | none => simpa [truthyNat] using h2
        | some n =>
          by_cases hn : n = 0
          · subst hn
            simpa [truthyNat] using h2
          · simp only [truthyNat, Option.getD_some] at h2 ⊢
            simpa [hn] using h2
      · rw [if_neg hmem] at hmemf
        exact absurd hmemf (List.not_mem_nil _)

/-- Witness for C7: an unconnected session registers callback 7 with a 200 ms
delay; a run of two successful create() steps invokes it exactly once. -/
theorem whenConnected_once_semantics_witness :
    countInvokes 7 (runOps ((Conversation.new none).1.whenConnected 7 (some 200)).1
        ([Op.create (CreateResponse.success "c1" "t1" 1800),
          Op.create (CreateResponse.success "c2" "t2" 1800)].take 2)).2 =
      (if Event.connected ∈
          (runOps ((Conversation.new none).1.whenConnected 7 (some 200)).1
            ([Op.create (CreateResponse.success "c1" "t1" 1800),
              Op.create (CreateResponse.success "c2" "t2" 1800)].take 2)).2
        then 1 else 0) := by
  have h := whenConnected_once_semantics (Conversation.new none).1 7 (some 200)
    [Op.create (CreateResponse.success "c1" "t1" 1800),
      Op.create (CreateResponse.success "c2" "t2" 1800)]
    (by decide) (fun d' hd => by simp at hd)
  exact (h.2 (by decide)).1 2
